import Mathlib

/-!
Verification of the rpncalc repository (an RPN calculator), embedded shallowly.

The repository holds two iterations of the same program:

* `rpncalc.c`  — segmented operand stack (`struct stack` of `stack_node`s of
  10 `double` slots each), `parse_buf`, `exec_op`, and a `main` loop.
* `rpncalc.cc` — the most complete iteration: `std::list<double>` operand
  stack, `parse_token`, `exec_op`, `exec_line`.

Embedding conventions:

* `double` values are modelled exactly as rationals (`ℚ`); none of the
  verified claims concern floating-point rounding.
* `std::list<double>` is modelled as `List ℚ` with the list head playing the
  role of `back()` (the top of the stack).
* the diagnostic `"error - division by zero"` printed by `exec_op` is
  modelled as a `Bool` result component (`true` iff the diagnostic was
  emitted during the call).
* `exec_line` returns the C `int` return value (`-1` models the failure the
  spec calls PartialFailure, `1` models Completed) together with the stack
  and the accumulated division-by-zero flag.
* the segmented stack of `rpncalc.c` is modelled by the list of its nodes
  ordered from `last` to `first` (the code works at `last`), each node
  listed most-recent-slot first, i.e. node `[a, b]` stands for
  `val[0] = b, val[1] = a, ptr = 2`.  The `count` field is carried verbatim.
* fatal `malloc` failure (`exit(-1)`) is outside the model: allocation is
  total in Lean.
-/

namespace Rpncalc

/-- `enum rpn_op` from both files. -/
inductive RpnOp
  | SUM
  | SUB
  | MUL
  | DIV
deriving DecidableEq

/-- `struct rpn_cmd`: the tag `enum rpn_type` together with the member of the
union it selects.  `exit` exists only in `rpncalc.c` (its `rpn_type` has
`EXIT`; the one in `rpncalc.cc` does not). -/
inductive RpnCmd
  | num (val : ℚ)
  | op (o : RpnOp) (op_times : Int)
  | drop
  | clear
  | exit
deriving DecidableEq

/-! ## Token validation helpers (`is_valid_double`, `is_valid_int`) -/

/-- the loop body of `is_valid_double`: `p` is the has-seen-a-dot flag. -/
def is_valid_double_aux : List Char → Bool → Bool
  | [], _ => true
  | c :: rest, p =>
    if c = '.' ∧ p = false then
      -- there is a dot, should be no others
      is_valid_double_aux rest true
    else if c.isDigit then
      is_valid_double_aux rest p
    else
      false

/-- `is_valid_double` from both files: every character a digit except at most
one dot.  (Note: it accepts a bare `"."`, see the C9 analysis.) -/
def is_valid_double (buf : List Char) : Bool :=
  is_valid_double_aux buf false

/-- `is_valid_int`: every character of the given range is a digit.  The
callers pass the token without its final operator character. -/
def is_valid_int (buf : List Char) : Bool :=
  buf.all Char.isDigit

/-! ## Numeric conversion (`strtod` / `std::stod`, `strtol` / `std::stol`) -/

/-- value of a digit character. -/
def digit_val (c : Char) : Nat := c.toNat - 48

/-- accumulate a decimal digit string left to right. -/
def digits_to_nat (l : List Char) : Nat :=
  l.foldl (fun a c => 10 * a + digit_val c) 0

/-- magnitude of an unsigned decimal (digits with at most one dot), as
`strtod` computes it on the shapes `is_valid_double` accepts.  On the
token `"."` this yields `0`, as C `strtod` does; `std::stod` instead throws
`std::invalid_argument` there (see C9). -/
def parse_decimal_mag (l : List Char) : ℚ :=
  let ip := l.takeWhile (fun c => c ≠ '.')
  match l.dropWhile (fun c => c ≠ '.') with
  | [] => (digits_to_nat ip : ℚ)
  | _ :: fp => (digits_to_nat ip : ℚ) + (digits_to_nat fp : ℚ) / (10 : ℚ) ^ fp.length

/-- `strtod` on the token shapes the parsers feed it: an optional sign
followed by digits with at most one dot. -/
def strtod_model (l : List Char) : ℚ :=
  match l with
  | '+' :: rest => parse_decimal_mag rest
  | '-' :: rest => - parse_decimal_mag rest
  | _ => parse_decimal_mag l

/-- `strtol(buf, NULL, 10)` on a repeat-form token: reads the leading digit
run (the callers guarantee the token is digits followed by one operator
character).  Machine-width truncation is not modelled; the verified claims
use small counts. -/
def strtol_model (l : List Char) : Int :=
  (digits_to_nat (l.takeWhile Char.isDigit) : Int)

/-! ## Command construction (`cmd_op`, `cmd_double`) -/

/-- the `switch(f_char_buf)` inside `cmd_op`; only called with one of the
four operator characters (the C switch has no default either). -/
def char_op (c : Char) : RpnOp :=
  if c = '+' then .SUM
  else if c = '-' then .SUB
  else if c = '*' then .MUL
  else .DIV

/-- `cmd_op`: build an operator command. -/
def cmd_op (times : Int) (f_char_buf : Char) : RpnCmd :=
  .op (char_op f_char_buf) times

/-- `cmd_double`: build a number command via `strtod` / `std::stod`. -/
def cmd_double (buf : List Char) : RpnCmd :=
  .num (strtod_model buf)

/-! ## Token classification -/

/-- `parse_token` from `rpncalc.cc`.  `none` models the `-1` return
(InvalidToken), `some cmd` the `0` return with `cmd` filled in.  The keyword
loop over its `rpn_commands` table `{ drop -> DROP, clear -> CLEAR }` is
unrolled into the two exact-match tests; note this table has no `"quit"`
entry (see C7). -/
def parse_token (tok : List Char) : Option RpnCmd :=
  match tok with
  | [] => none
  | f :: rest =>
    -- check for a command in the rpn_commands table
    if tok = "drop".toList then some .drop
    else if tok = "clear".toList then some .clear
    -- check for both an op and a signed number
    else if f = '+' ∨ f = '-' then
      if rest ≠ [] then
        if is_valid_double rest then some (cmd_double tok) else none
      else some (cmd_op 1 f)
    -- check for the remaining ops
    else if f = '*' ∨ f = '/' then
      if rest ≠ [] then none else some (cmd_op 1 f)
    else
      -- here could be a number or a multiple command like 3+, 4-
      if is_valid_double tok then some (cmd_double tok)
      else
        -- tok.getLastD is buf[last_char_index]; tok is nonempty here so the
        -- default is never consulted
        if (tok.getLastD ' ' = '+' ∨ tok.getLastD ' ' = '-' ∨
            tok.getLastD ' ' = '*' ∨ tok.getLastD ' ' = '/') ∧
           is_valid_int tok.dropLast then
          some (cmd_op (strtol_model tok) (tok.getLastD ' '))
        else none

/-- `parse_buf` from `rpncalc.c`.  Its keyword table also holds
`{ quit -> EXIT }`, and its final branch has no catch-all: on a token that is
neither a valid double nor a repeat form it returns `0` leaving `cmd`
untouched, so the stale previous command `prev` is what the caller sees. -/
def parse_buf (buf : List Char) (prev : RpnCmd) : Option RpnCmd :=
  match buf with
  | [] => none
  | f :: rest =>
    -- check for a command in the rpn_commands table
    if buf = "quit".toList then some .exit
    else if buf = "drop".toList then some .drop
    else if buf = "clear".toList then some .clear
    else if f = '+' ∨ f = '-' then
      if rest ≠ [] then
        if is_valid_double rest then some (cmd_double buf) else none
      else some (cmd_op 1 f)
    else if f = '*' ∨ f = '/' then
      if rest ≠ [] then none else some (cmd_op 1 f)
    else
      if is_valid_double buf then some (cmd_double buf)
      else
        if (buf.getLastD ' ' = '+' ∨ buf.getLastD ' ' = '-' ∨
            buf.getLastD ' ' = '*' ∨ buf.getLastD ' ' = '/') ∧
           is_valid_int buf.dropLast then
          some (cmd_op (strtol_model buf) (buf.getLastD ' '))
        else
          -- fall-through: return 0 with cmd untouched
          some prev

/-! ## Operator executor (`exec_op`) -/

/-- the `for (int i = 0; i < times; ++i)` loop body of `exec_op` from
`rpncalc.cc`, with the remaining iteration count as fuel.  The stack head is
`back()`.  The `Bool` result is `true` iff the division-by-zero diagnostic
was printed; that branch returns without pushing, with both popped operands
gone. -/
def exec_op_iter (op : RpnOp) : List ℚ → Nat → List ℚ × Bool
  | s, 0 => (s, false)
  | s, n + 1 =>
    if s.length ≤ 1 then (s, false)
    else
      match s with
      | x :: y :: rest =>
        match op with
        | .SUM => exec_op_iter op ((x + y) :: rest) n
        | .SUB => exec_op_iter op ((y - x) :: rest) n
        | .MUL => exec_op_iter op ((x * y) :: rest) n
        | .DIV =>
          if x = 0 then (rest, true)
          else exec_op_iter op ((y / x) :: rest) n
      | _ => (s, false)  -- excluded by the length test above

/-- `exec_op`: `times == 0` is the apply-for-all-elements sentinel, replaced
by `size() - 1` computed in `int` arithmetic (`-1` when the stack is empty,
so the loop runs zero times). -/
def exec_op (s : List ℚ) (op : RpnOp) (times : Int) : List ℚ × Bool :=
  let t : Int := if times = 0 then (s.length : Int) - 1 else times
  exec_op_iter op s t.toNat

/-! ## Line evaluator (`exec_line`) -/

/-- the per-command `switch(cmd.t)` of `exec_line` in `rpncalc.cc`.  `drop`
is `s->pop_back()`: on an empty `std::list` this is undefined behaviour in
C++; it is modelled as the no-op that the C iteration's `stack_pop` defines
(see C10).  `exit` is unreachable here because `parse_token` never produces
it. -/
def exec_cmd (s : List ℚ) (cmd : RpnCmd) : List ℚ × Bool :=
  match cmd with
  | .num v => (v :: s, false)
  | .op o times =>
    if times = 0 then exec_op s o ((s.length : Int) - 1)
    else exec_op s o times
  | .drop => (s.tail, false)
  | .clear => ([], false)
  | .exit => (s, false)

/-- the token splitting performed by `exec_line`'s
`find_first_of(" ") / substr` loop: the line is cut at every single space
character, and the empty pieces between consecutive separators are kept.
The loop always yields at least one token (the empty line yields `[[]]`). -/
def tokenize : List Char → List (List Char)
  | [] => [[]]
  | c :: rest =>
    if c = ' ' then [] :: tokenize rest
    else
      match tokenize rest with
      | t :: ts => (c :: t) :: ts
      | [] => [[c]]  -- unreachable: tokenize never returns []

/-- the per-token work of `exec_line`'s do-while: parse, return `-1` on a
parse failure, otherwise dispatch the command and continue.  The `Bool`
accumulates the division-by-zero diagnostic flag.  Exhausting the tokens
returns `1`. -/
def exec_toks : List (List Char) → List ℚ → Bool → Int × List ℚ × Bool
  | [], s, err => (1, s, err)
  | tok :: rest, s, err =>
    match parse_token tok with
    | none => (-1, s, err)
    | some cmd =>
      let r := exec_cmd s cmd
      exec_toks rest r.1 (err || r.2)

/-- `exec_line` from `rpncalc.cc`.  The source interleaves splitting with
execution; since the split does not depend on the stack, it is factored as
`tokenize` followed by the token loop.  Result: the C return value (`-1` is
the failure the spec calls PartialFailure, `1` is Completed), the stack, and
the division-by-zero flag. -/
def exec_line (s : List ℚ) (buf : List Char) : Int × List ℚ × Bool :=
  exec_toks (tokenize buf) s false

/-- reference fold used to state C2: apply the commands of a list of tokens
that all parse, carrying the stack and the diagnostic flag. -/
def run_cmds : List (List Char) → List ℚ × Bool → List ℚ × Bool
  | [], se => se
  | t :: ts, se =>
    match parse_token t with
    | none => se  -- unreachable in use: C2 assumes the tokens parse
    | some cmd =>
      let r := exec_cmd se.1 cmd
      run_cmds ts (r.1, se.2 || r.2)

/-! ## Segmented stack (`rpncalc.c`) -/

/-- `STACK_NODE_ELEMENTS_NUM`: the slot capacity of one `stack_node`. -/
def STACK_NODE_ELEMENTS_NUM : Nat := 10

/-- `struct stack`, modelled by the node chain it links.  `segs` lists the
nodes from `last` to `first`; each node lists its occupied slots
`val[ptr-1], ..., val[0]` (most recent first), so `segs.flatten` is the
stack content from the top down.  `count` is the `count` field verbatim. -/
structure CStack where
  segs : List (List ℚ)
  count : Nat
deriving DecidableEq

/-- `stack_init`: a single empty node, `count = 0`. -/
def stack_init : CStack := ⟨[[]], 0⟩

/-- `stack_push`: if the last node is full, allocate a new one; store the
value at the last node's `ptr` slot and bump `count`. -/
def stack_push (s : CStack) (k : ℚ) : CStack :=
  match s.segs with
  | [] => s  -- unreachable: the first node always exists
  | last :: rest =>
    if last.length = STACK_NODE_ELEMENTS_NUM then
      ⟨[k] :: last :: rest, s.count + 1⟩
    else
      ⟨(k :: last) :: rest, s.count + 1⟩

/-- `stack_pop`: returns `(none, s)` (the C `return 0`, stack untouched) on
`count == 0`; otherwise frees the last node if it is empty, then removes and
returns the top slot of the (new) last node, decrementing `count`.  The
`ret == NULL` mode (`DROP`) runs the same control flow with the value
discarded. -/
def stack_pop (s : CStack) : Option ℚ × CStack :=
  if s.count = 0 then (none, s)
  else
    match s.segs with
    | [] :: (v :: vs) :: rest =>
      -- the last node is empty: free it and look to the previous one
      (some v, ⟨vs :: rest, s.count - 1⟩)
    | (v :: vs) :: rest => (some v, ⟨vs :: rest, s.count - 1⟩)
    | other =>
      -- count != 0 with no stored value: unreachable for stacks the
      -- program builds (the C code would index val[-1] here)
      (none, ⟨other, s.count - 1⟩)

/-- `stack_clear`: frees the nodes after the first (the source loop skips
the final one, leaking it, and leaves `s->last` dangling) and sets
`first->ptr = 0` and `first->next = NULL`; the node chain reachable from
`first` is the emptied first node.  NOTE: the source does not reset
`count` (see C6). -/
def stack_clear (s : CStack) : CStack :=
  ⟨[[]], s.count⟩

/-- the traversal order of `stack_print`: nodes from `first` to `last`,
slots `val[0] .. val[ptr-1]` within each node, i.e. insertion order. -/
def stack_iterate (s : CStack) : List ℚ :=
  ((s.segs.map List.reverse).reverse).flatten

/-- push a whole sequence, first element first. -/
def stack_push_list (s : CStack) (vs : List ℚ) : CStack :=
  vs.foldl stack_push s

/-- pop `n` times, collecting the returned values in pop order. -/
def stack_pop_n : CStack → Nat → List ℚ × CStack
  | s, 0 => ([], s)
  | s, n + 1 =>
    match stack_pop s with
    | (some v, s2) =>
      let r := stack_pop_n s2 n
      (v :: r.1, r.2)
    | (none, s2) => ([], s2)

/-- well-formedness of the modelled `struct stack`: the node chain is
nonempty, every node other than `last` is full, `last` holds at most a full
node, and `count` counts the stored values.  Every stack the program builds
from `stack_init` satisfies this. -/
def Wf (s : CStack) : Prop :=
  s.segs ≠ [] ∧
  (∀ seg ∈ s.segs.tail, seg.length = STACK_NODE_ELEMENTS_NUM) ∧
  s.segs.headI.length ≤ STACK_NODE_ELEMENTS_NUM ∧
  s.count = s.segs.flatten.length

instance (s : CStack) : Decidable (Wf s) := by
  unfold Wf; infer_instance

/-! ## Helper lemmas about the segmented stack -/

/-- one `stack_push` prepends the value to the top-down content and bumps
`count`. -/
lemma stack_push_segs (s : CStack) (k : ℚ) (h : s.segs ≠ []) :
    (stack_push s k).segs.flatten = k :: s.segs.flatten ∧
    (stack_push s k).count = s.count + 1 := by
  cases hs : s.segs with
  | nil => exact absurd hs h
  | cons last rest =>
    simp only [stack_push, hs]
    split <;> simp

/-- `stack_push` preserves well-formedness. -/
lemma stack_push_wf (s : CStack) (k : ℚ) (h : Wf s) : Wf (stack_push s k) := by
  obtain ⟨h1, h2, h3, h4⟩ := h
  cases hs : s.segs with
  | nil => exact absurd hs h1
  | cons last rest =>
    rw [hs] at h2 h3 h4
    simp only [stack_push, hs]
    split
    · refine ⟨by simp, ?_, by simp [STACK_NODE_ELEMENTS_NUM], ?_⟩
      · intro seg hseg
        rcases List.mem_cons.mp hseg with h5 | h5
        · subst h5; assumption
        · exact h2 seg h5
      · simp at h4 ⊢; omega
    · refine ⟨by simp, by simpa using h2, ?_, ?_⟩
      · simp only [List.headI] at h3 ⊢
        simp only [List.length_cons]
        omega
      · simp at h4 ⊢; omega

/-- on a nonempty well-formed stack, `stack_pop` succeeds, removes exactly
the top value, preserves well-formedness and decrements `count`. -/
lemma stack_pop_spec (s : CStack) (h : Wf s) (hc : s.count ≠ 0) :
    ∃ v s2, stack_pop s = (some v, s2) ∧ Wf s2 ∧
      s.segs.flatten = v :: s2.segs.flatten ∧ s2.count = s.count - 1 := by
  obtain ⟨h1, h2, h3, h4⟩ := h
  cases hs : s.segs with
  | nil => exact absurd hs h1
  | cons last rest =>
    rw [hs] at h2 h3 h4
    cases hl : last with
    | nil =>
      cases hr : rest with
      | nil =>
        subst hl hr
        simp at h4
        exact absurd h4 hc
      | cons prev rest2 =>
        subst hl hr
        have hprev : prev.length = STACK_NODE_ELEMENTS_NUM := h2 prev (by simp)
        cases hp : prev with
        | nil => rw [hp] at hprev; simp [STACK_NODE_ELEMENTS_NUM] at hprev
        | cons v vs =>
          subst hp
          refine ⟨v, ⟨vs :: rest2, s.count - 1⟩, ?_, ?_, ?_, rfl⟩
          · simp [stack_pop, hc, hs]
          · refine ⟨by simp, ?_, ?_, ?_⟩
            · intro seg hseg
              simp only [List.tail_cons] at hseg
              exact h2 seg (by simp; right; exact hseg)
            · simp only [List.headI]
              have h6 : (v :: vs).length = STACK_NODE_ELEMENTS_NUM := hprev
              simp at h6
              omega
            · simp at h4 ⊢; omega
          · simp
    | cons v vs =>
      subst hl
      refine ⟨v, ⟨vs :: rest, s.count - 1⟩, ?_, ?_, ?_, rfl⟩
      · simp [stack_pop, hc, hs]
      · refine ⟨by simp, ?_, ?_, ?_⟩
        · intro seg hseg
          exact h2 seg (by simpa using hseg)
        · simp only [List.headI] at h3 ⊢
          simp at h3
          omega
        · simp at h4 ⊢; omega
      · simp

/-- pushing a sequence prepends its reverse to the top-down content. -/
lemma stack_push_list_spec (vs : List ℚ) : ∀ s : CStack, Wf s →
    Wf (stack_push_list s vs) ∧
    (stack_push_list s vs).segs.flatten = vs.reverse ++ s.segs.flatten ∧
    (stack_push_list s vs).count = s.count + vs.length := by
  induction vs with
  | nil => intro s h; simpa [stack_push_list] using h
  | cons v vs ih =>
    intro s h
    have hw := stack_push_wf s v h
    have hp := stack_push_segs s v h.1
    have hrec := ih (stack_push s v) hw
    have hstep : stack_push_list s (v :: vs) = stack_push_list (stack_push s v) vs := rfl
    refine ⟨hstep ▸ hrec.1, ?_, ?_⟩
    · rw [hstep, hrec.2.1, hp.1]
      simp
    · rw [hstep, hrec.2.2, hp.2]
      simp
      omega

/-- popping `n ≤ count` times returns the first `n` values of the top-down
content. -/
lemma stack_pop_n_spec : ∀ (n : Nat) (s : CStack), Wf s → n ≤ s.count →
    (stack_pop_n s n).1 = s.segs.flatten.take n := by
  intro n
  induction n with
  | zero => intro s h hn; simp [stack_pop_n]
  | succ n ih =>
    intro s h hn
    have hc : s.count ≠ 0 := by omega
    obtain ⟨v, s2, hpop, hw2, hfl, hcnt⟩ := stack_pop_spec s h hc
    simp only [stack_pop_n, hpop]
    rw [ih s2 hw2 (by omega), hfl]
    simp

/-! ## Helper lemmas about the executor and evaluator -/

/-- a `DIV` iteration whose popped `x` is `0` ends the whole application
with the diagnostic, regardless of the remaining fuel. -/
lemma exec_op_iter_div_zero (y : ℚ) (rest : List ℚ) (n : Nat) :
    exec_op_iter .DIV (0 :: y :: rest) (n + 1) = (rest, true) := by
  simp [exec_op_iter]

/-- `tokenize` cuts exactly at a space following a space-free piece. -/
lemma tokenize_append_space : ∀ (t buf : List Char), ' ' ∉ t →
    tokenize (t ++ ' ' :: buf) = t :: tokenize buf := by
  intro t
  induction t with
  | nil => intro buf h; simp [tokenize]
  | cons c ts ih =>
    intro buf h
    have hc : c ≠ ' ' := by intro hce; exact h (by simp [hce])
    have hts : ' ' ∉ ts := by intro hmem; exact h (by simp [hmem])
    simp only [List.cons_append, tokenize, if_neg hc, List.append_eq]
    rw [ih buf hts]

/-! ## Claim theorems -/

/-- C1: when a `Divide` iteration pops a top operand `x = 0`, `exec_op`
pushes no result, performs none of the remaining iterations (any remaining
fuel `n + 1` gives the same outcome), surfaces the division-by-zero
diagnostic to the caller, and leaves the stack exactly as it is at that
moment: the two popped operands are consumed and not restored.  This holds
for every nonnegative repeat count, `0` (the until-underflow sentinel)
included, and evaluating the line `"10 0 /"` on an empty stack ends with
the diagnostic raised and an empty stack. -/
theorem div_by_zero_aborts (y : ℚ) (rest : List ℚ) :
    (∀ n : Nat, exec_op_iter .DIV (0 :: y :: rest) (n + 1) = (rest, true)) ∧
    (∀ times : Int, 0 ≤ times →
        exec_op (0 :: y :: rest) .DIV times = (rest, true)) ∧
    exec_line [] ("10 0 /".toList) = (1, [], true) := by
  refine ⟨fun n => exec_op_iter_div_zero y rest n, fun times ht => ?_, by
    simp [exec_line, tokenize, exec_toks, parse_token, exec_cmd, exec_op, exec_op_iter,
          cmd_double, cmd_op, char_op, strtod_model, parse_decimal_mag, digits_to_nat,
          digit_val, is_valid_double, is_valid_double_aux, is_valid_int, strtol_model,
          String.toList]⟩
  simp only [exec_op]
  by_cases h0 : times = 0
  · subst h0
    rw [if_pos rfl]
    have h2 : (((0 :: y :: rest).length : Int) - 1).toNat = rest.length + 1 := by
      simp
    rw [h2]
    exact exec_op_iter_div_zero y rest _
  · rw [if_neg h0]
    have h1 : times.toNat = (times.toNat - 1) + 1 := by omega
    rw [h1]
    exact exec_op_iter_div_zero y rest _

/-- C1 witness: `exec_op` on stack `[0, 10]` (top first, i.e. after pushing
`10` then `0`) with `Divide`, one repetition. -/
theorem div_by_zero_aborts_witness :
    (0 : Int) ≤ 1 ∧ exec_op [0, 10] .DIV 1 = ([], true) :=
  ⟨by decide, (div_by_zero_aborts 10 []).2.1 1 (by decide)⟩

/-- C2: `exec_line` stops at the first token that fails to parse and
returns `-1` (PartialFailure): for any token list made of parsable tokens
`pre`, a bad token, and an arbitrary remainder `post`, the result is `-1`
with exactly the commands of `pre` applied to the stack (no rollback), and
the result does not depend on `post` at all (no later token is processed).
Concretely, `"5 bogus 6"` on an empty stack gives `-1` with stack `[5]`. -/
theorem invalid_token_stops_line (s : List ℚ) (err : Bool)
    (pre post : List (List Char)) (bad : List Char)
    (hpre : ∀ t ∈ pre, (parse_token t).isSome = true)
    (hbad : parse_token bad = none) :
    exec_toks (pre ++ bad :: post) s err = (-1, run_cmds pre (s, err)) ∧
    exec_line [] ("5 bogus 6".toList) = (-1, [5], false) := by
  refine ⟨?_, by
    simp [exec_line, tokenize, exec_toks, parse_token, exec_cmd, exec_op, exec_op_iter,
          cmd_double, cmd_op, char_op, strtod_model, parse_decimal_mag, digits_to_nat,
          digit_val, is_valid_double, is_valid_double_aux, is_valid_int, strtol_model,
          String.toList]⟩
  induction pre generalizing s err with
  | nil => simp [exec_toks, hbad, run_cmds]
  | cons t ts ih =>
    have ht := hpre t (by simp)
    obtain ⟨cmd, hcmd⟩ := Option.isSome_iff_exists.mp ht
    simp only [List.cons_append, exec_toks, hcmd, run_cmds]
    exact ih _ _ (fun t2 ht2 => hpre t2 (List.mem_cons_of_mem t ht2))

/-- C2 witness: the line `5 bogus 6` instantiated token by token. -/
theorem invalid_token_stops_line_witness :
    (∀ t ∈ [("5".toList)], (parse_token t).isSome = true) ∧
    parse_token ("bogus".toList) = none ∧
    exec_toks ([("5".toList)] ++ ("bogus".toList) :: [("6".toList)]) [] false
      = (-1, run_cmds [("5".toList)] ([], false)) :=
  ⟨by decide, by decide,
    (invalid_token_stops_line [] false [("5".toList)] [("6".toList)] ("bogus".toList)
      (by decide) (by decide)).1⟩

/-- C3: a nonempty token that is not a keyword of `parse_token`'s table,
not a single-character operator, not a plain valid decimal, not a
sign-prefixed valid decimal, and not an unsigned-integer-then-operator
repeat form, is rejected with `none` (InvalidToken); in particular
`"bogus"` and `"1.2.3"` are rejected. -/
theorem invalid_shape_rejected (tok : List Char)
    (hne : tok ≠ [])
    (hkw : tok ≠ "drop".toList ∧ tok ≠ "clear".toList)
    (hop : tok ≠ ['+'] ∧ tok ≠ ['-'] ∧ tok ≠ ['*'] ∧ tok ≠ ['/'])
    (hplain : is_valid_double tok = false)
    (hsign : ¬(1 < tok.length ∧ (tok.headI = '+' ∨ tok.headI = '-') ∧
               is_valid_double tok.tail = true))
    (hrep : ¬((tok.getLastD ' ' = '+' ∨ tok.getLastD ' ' = '-' ∨
               tok.getLastD ' ' = '*' ∨ tok.getLastD ' ' = '/') ∧
              is_valid_int tok.dropLast = true)) :
    parse_token tok = none ∧
    parse_token ("bogus".toList) = none ∧ parse_token ("1.2.3".toList) = none := by
  refine ⟨?_, by decide, by decide⟩
  cases tok with
  | nil => exact absurd rfl hne
  | cons f rest =>
    simp only [parse_token]
    rw [if_neg hkw.1, if_neg hkw.2]
    by_cases hf1 : f = '+' ∨ f = '-'
    · rw [if_pos hf1]
      cases hrest : rest with
      | nil =>
        subst hrest
        exfalso
        rcases hf1 with hf | hf <;> subst hf
        · exact hop.1 rfl
        · exact hop.2.1 rfl
      | cons r rs =>
        subst hrest
        rw [if_pos (by simp : (r :: rs : List Char) ≠ [])]
        have hv : is_valid_double (r :: rs) = false := by
          rcases Bool.eq_false_or_eq_true (is_valid_double (r :: rs)) with hv | hv
          · exact absurd ⟨by simp, by simpa using hf1, by simpa using hv⟩ hsign
          · exact hv
        simp [hv]
    · rw [if_neg hf1]
      by_cases hf2 : f = '*' ∨ f = '/'
      · rw [if_pos hf2]
        cases hrest : rest with
        | nil =>
          subst hrest
          exfalso
          rcases hf2 with hf | hf <;> subst hf
          · exact hop.2.2.1 rfl
          · exact hop.2.2.2 rfl
        | cons r rs => subst hrest; simp
      · rw [if_neg hf2]
        rw [if_neg (by simp [hplain] : ¬(is_valid_double (f :: rest) = true))]
        rw [if_neg (by simpa using hrep)]

/-- C3 witness: the token `"abc"` satisfies every exclusion and is
rejected. -/
theorem invalid_shape_rejected_witness :
    parse_token ("abc".toList) = none ∧
    parse_token ("bogus".toList) = none ∧ parse_token ("1.2.3".toList) = none :=
  invalid_shape_rejected ("abc".toList) (by decide) (by decide) (by decide) (by decide)
    (by decide) (by decide)

/-- C4: with repeat count `0`, `exec_op` runs the loop `max(size - 1, 0)`
times (truncated `Nat` subtraction is exactly that maximum), and any
iteration finding one or zero operands stops silently, returning the stack
unchanged with no diagnostic; `"1 2 3 0+"` on an empty stack leaves `[6]`. -/
theorem zero_repeat_and_starvation :
    (∀ (s : List ℚ) (op : RpnOp), exec_op s op 0 = exec_op_iter op s (s.length - 1)) ∧
    (∀ (s : List ℚ) (op : RpnOp) (n : Nat), s.length ≤ 1 →
        exec_op_iter op s n = (s, false)) ∧
    exec_line [] ("1 2 3 0+".toList) = (1, [6], false) := by
  refine ⟨fun s op => ?_, fun s op n h => ?_, by
    simp [exec_line, tokenize, exec_toks, parse_token, exec_cmd, exec_op, exec_op_iter,
          cmd_double, cmd_op, char_op, strtod_model, parse_decimal_mag, digits_to_nat,
          digit_val, is_valid_double, is_valid_double_aux, is_valid_int, strtol_model,
          String.toList]
    norm_num⟩
  · simp only [exec_op, if_true]
    have he : (((s.length : Int)) - 1).toNat = s.length - 1 := by omega
    rw [he]
  · cases n with
    | zero => rfl
    | succ n => simp [exec_op_iter, h]

/-- C4 witness: a one-element stack stops any operator application
silently. -/
theorem zero_repeat_and_starvation_witness :
    ([(5 : ℚ)].length ≤ 1) ∧ exec_op_iter .SUM [(5 : ℚ)] 3 = ([5], false) :=
  ⟨by simp, zero_repeat_and_starvation.2.1 [5] .SUM 3 (by simp)⟩

/-- C5: pushing `v1..vn` on any well-formed stack and popping `n` times
returns exactly `vn..v1`, for every `n`, segment-capacity boundaries
included. -/
theorem push_pop_roundtrip (s : CStack) (vs : List ℚ) (h : Wf s) :
    (stack_pop_n (stack_push_list s vs) vs.length).1 = vs.reverse := by
  obtain ⟨hw, hfl, hcnt⟩ := stack_push_list_spec vs s h
  rw [stack_pop_n_spec vs.length _ hw (by omega), hfl]
  rw [← List.length_reverse vs]
  exact List.take_left _ _

/-- C5 witness: `n = 21` (crossing two segment boundaries, `2C + 1` with
`C = 10`) and `n = 10` (exactly one full segment) from the initial stack. -/
theorem push_pop_roundtrip_witness :
    Wf stack_init ∧
    ((stack_pop_n (stack_push_list stack_init ((List.range 21).map (fun n => (n : ℚ))))
        ((List.range 21).map (fun n => (n : ℚ))).length).1
      = ((List.range 21).map (fun n => (n : ℚ))).reverse) ∧
    ((stack_pop_n (stack_push_list stack_init ((List.range 10).map (fun n => (n : ℚ))))
        ((List.range 10).map (fun n => (n : ℚ))).length).1
      = ((List.range 10).map (fun n => (n : ℚ))).reverse) :=
  ⟨by decide, push_pop_roundtrip stack_init _ (by decide),
    push_pop_roundtrip stack_init _ (by decide)⟩

/-- C6 (code evaluation at the failing input): after `push 1` on the fresh
stack, `stack_clear` leaves the node chain empty — `stack_iterate` yields
nothing — but does not reset `count`, which stays `1`, so the size the
program tracks is not `0`; on the already-empty stack `stack_clear` changes
nothing. -/
theorem clear_keeps_count :
    stack_clear (stack_push stack_init 1) = ⟨[[]], 1⟩ ∧
    (stack_clear (stack_push stack_init 1)).count ≠ 0 ∧
    stack_iterate (stack_clear (stack_push stack_init 1)) = [] ∧
    stack_clear stack_init = stack_init := by
  refine ⟨?_, ?_, ?_, ?_⟩ <;>
    simp [stack_clear, stack_push, stack_init, stack_iterate, STACK_NODE_ELEMENTS_NUM]

/-- C7 counterexample: the claim maps `"quit"` to Quit, but the classifier
of `rpncalc.cc` rejects `"quit"` (its `rpn_commands` table has no such
entry). -/
theorem keyword_quit_counterexample : parse_token ("quit".toList) = none := by decide

/-- C7 (amended): the exact-match keyword check comes before every other
rule in both classifiers; `parse_token` (`rpncalc.cc`) maps exactly
`"drop"`/`"clear"` and rejects `"quit"`, while `parse_buf` (`rpncalc.c`)
also maps `"quit"` to `EXIT`, whatever command preceded it. -/
theorem keyword_tokens :
    parse_token ("drop".toList) = some .drop ∧
    parse_token ("clear".toList) = some .clear ∧
    (∀ prev : RpnCmd, parse_buf ("quit".toList) prev = some .exit) ∧
    (∀ prev : RpnCmd, parse_buf ("drop".toList) prev = some .drop) ∧
    (∀ prev : RpnCmd, parse_buf ("clear".toList) prev = some .clear) ∧
    parse_token ("quit".toList) = none :=
  ⟨by decide, by decide, fun prev => rfl, fun prev => rfl, fun prev => rfl, by decide⟩

/-- C8 counterexample: a repeated separator changes the result of
evaluation — `"5  6"` stops with `-1` and stack `[5]`, while `"5 6"`
completes with stack `[6, 5]`. -/
theorem separator_not_ignored :
    exec_line [] ("5  6".toList) = (-1, [5], false) ∧
    exec_line [] ("5 6".toList) = (1, [6, 5], false) ∧
    exec_line [] ("5  6".toList) ≠ exec_line [] ("5 6".toList) := by
  refine ⟨?_, ?_, ?_⟩ <;>
    simp [exec_line, tokenize, exec_toks, parse_token, exec_cmd, exec_op, exec_op_iter,
          cmd_double, cmd_op, char_op, strtod_model, parse_decimal_mag, digits_to_nat,
          digit_val, is_valid_double, is_valid_double_aux, is_valid_int, strtol_model,
          String.toList]

/-- C8 (amended): `exec_line` cuts the line at every single space and keeps
the empty tokens produced by repeated separators; an empty token fails to
parse, so evaluation stops there with `-1` (PartialFailure), the earlier
commands staying applied — extra separators therefore do change the
result, as `"5  6"` shows. -/
theorem empty_token_stops_line (t buf : List Char) (h : ' ' ∉ t) :
    tokenize (t ++ ' ' :: buf) = t :: tokenize buf ∧
    parse_token [] = none ∧
    (∀ (toks : List (List Char)) (s : List ℚ) (err : Bool),
        exec_toks ([] :: toks) s err = (-1, s, err)) ∧
    exec_line [] ("5  6".toList) = (-1, [5], false) :=
  ⟨tokenize_append_space t buf h, rfl, fun toks s err => rfl, by
    simp [exec_line, tokenize, exec_toks, parse_token, exec_cmd, exec_op, exec_op_iter,
          cmd_double, cmd_op, char_op, strtod_model, parse_decimal_mag, digits_to_nat,
          digit_val, is_valid_double, is_valid_double_aux, is_valid_int, strtol_model,
          String.toList]⟩

/-- C8 witness: splitting `"5 6"` at its space. -/
theorem empty_token_stops_line_witness :
    (' ' ∉ ("5".toList)) ∧
    tokenize ("5".toList ++ ' ' :: "6".toList) = "5".toList :: tokenize ("6".toList) :=
  ⟨by decide, (empty_token_stops_line ("5".toList) ("6".toList) (by decide)).1⟩

/-- C9 (code evaluation at the failing input): `is_valid_double` accepts
the bare dot, so `parse_token` classifies `"."`, `"+."` and `"-."` as
Numbers (value `0` under the `strtod` model; `std::stod` in `rpncalc.cc`
actually throws there) instead of rejecting them. -/
theorem dot_token_accepted :
    is_valid_double ['.'] = true ∧
    parse_token ['.'] = some (.num 0) ∧
    parse_token ("+.".toList) = some (.num 0) ∧
    parse_token ("-.".toList) = some (.num 0) := by
  refine ⟨by decide, ?_, ?_, ?_⟩ <;>
    simp [parse_token, cmd_double, char_op, strtod_model, parse_decimal_mag,
          digits_to_nat, digit_val, is_valid_double, is_valid_double_aux, is_valid_int,
          strtol_model, String.toList]

/-- C10: on an empty stack (`count = 0`), `stack_pop` — the Drop path,
with the value discarded — returns `0` before touching anything: the stack
is unchanged, its size stays `0`, the iteration order is unchanged, and no
error is raised. -/
theorem drop_on_empty_noop (s : CStack) (h : s.count = 0) :
    stack_pop s = (none, s) ∧
    (stack_pop s).2.count = 0 ∧
    stack_iterate (stack_pop s).2 = stack_iterate s := by
  have hp : stack_pop s = (none, s) := by simp [stack_pop, h]
  exact ⟨hp, by rw [hp]; exact h, by rw [hp]⟩

/-- C10 witness: dropping on the fresh empty stack. -/
theorem drop_on_empty_noop_witness :
    stack_init.count = 0 ∧ stack_pop stack_init = (none, stack_init) :=
  ⟨rfl, (drop_on_empty_noop stack_init rfl).1⟩

end Rpncalc
